import Mathlib

/-!
Verification development for the dqm_client molecule module
(src/dqm_client/molecule.py).

The Python code is shallowly embedded: floats become rationals,
NumPy arrays become lists, exceptions become an explicit error type,
and each method becomes a Lean function that mirrors the source
statement by statement.  Collaborator modules that are not part of
src/ (the constants tables, fields.valid_fields, schema.get_hash_fields,
hash_helpers.float_prep and the digest function) are modelled from the
specification and carry a doc comment saying so.
-/

/-- Error classes raised by the Python code, one constructor per
Python exception class that the module can raise.  The string payload
is the message (for `indexError` we record the failing access site,
which in Python is visible in the traceback). -/
inductive MolError where
  | typeError (msg : String)
  | keyError (msg : String)
  | indexError (site : String)
  | valueError (msg : String)
  | attributeError (msg : String)
  deriving DecidableEq, Repr

/-- A row of the N-by-3 geometry array. -/
structure Vec3 where
  x : ℚ
  y : ℚ
  z : ℚ
  deriving DecidableEq, Repr

/-- The Molecule attribute bag laid out in `Molecule.__init__`
(molecule.py lines 34-52).  `geometry` starts as None in Python and is
always a list here; `provenance` is a dict modelled as an association
list; `custom_masses` is the `_custom_masses` flag. -/
structure Molecule where
  symbols : List String
  geometry : List Vec3
  masses : List ℚ
  name : String
  comment : String
  charge : ℚ
  multiplicity : Int
  real : List Bool
  fragments : List (List ℕ)
  fragment_charges : List ℚ
  fragment_multiplicities : List Int
  provenance : List (String × String)
  custom_masses : Bool
  deriving DecidableEq, Repr

/-- The freshly initialised attribute bag of `Molecule.__init__` before
any parsing happens (mol_str=None path). -/
def Molecule.init : Molecule :=
  { symbols := [], geometry := [], masses := [], name := "", comment := "",
    charge := 0, multiplicity := 1, real := [], fragments := [],
    fragment_charges := [], fragment_multiplicities := [], provenance := [],
    custom_masses := false }

/-! ## Rounding constants (molecule.py lines 18-21) -/

def GEOMETRY_NOISE : ℕ := 8
def MASS_NOISE : ℕ := 6
def CHARGE_NOISE : ℕ := 4

/-- physconst["bohr2angstroms"] from physconst.py. -/
def bohr2angstroms : ℚ := 52917720859 / 100000000000

/-! ## Python string helpers

Inputs are assumed to be ASCII, so Python's `\s`, `\d`, `[A-Z]` with
IGNORECASE and `\w` coincide with the ASCII character classes used
below. -/

/-- Python regex `\s` over ASCII. -/
def isPySpace (c : Char) : Bool :=
  c = ' ' || c = '\t' || c = '\n' || c = '\r' || c = '\x0b' || c = '\x0c'

/-- Python regex `\w` over ASCII. -/
def isWordChar (c : Char) : Bool :=
  c.isAlpha || c.isDigit || c = '_'

def stripLead (cs : List Char) : List Char := cs.dropWhile isPySpace

def stripTrail (cs : List Char) : List Char :=
  (cs.reverse.dropWhile isPySpace).reverse

/-- Python `str.strip()`. -/
def pyStrip (cs : List Char) : List Char := stripTrail (stripLead cs)

/-- Numeric value of a digit run. -/
def digitsToNat (cs : List Char) : ℕ :=
  cs.foldl (fun a c => a * 10 + (c.toNat - 48)) 0

/-- Helper for `pySplit`: `acc` holds the (reversed) token in
progress, if any. -/
def pySplitAux : List Char → List Char → List (List Char)
  | [], acc => if acc.isEmpty then [] else [acc.reverse]
  | c :: rest, acc =>
    if isPySpace c then
      if acc.isEmpty then pySplitAux rest []
      else acc.reverse :: pySplitAux rest []
    else pySplitAux rest (c :: acc)

/-- Python `str.split()` with no argument: split on whitespace runs,
dropping empty tokens. -/
def pySplit (cs : List Char) : List (List Char) := pySplitAux cs []

mutual

/-- Helper for `reSplitWsComma`: inside a token with (reversed)
prefix `acc`. -/
def reSplitTok : List Char → List Char → List (List Char)
  | acc, [] => [acc.reverse]
  | acc, c :: rest =>
    if isPySpace c then acc.reverse :: reSplitSep rest
    else if c = ',' then acc.reverse :: reSplitSep rest
    else reSplitTok (c :: acc) rest

/-- Helper for `reSplitWsComma`: just after a separator, skipping its
trailing whitespace; an immediately following comma starts a new
separator, yielding an empty token. -/
def reSplitSep : List Char → List (List Char)
  | [] => [[]]
  | c :: rest =>
    if isPySpace c then reSplitSep rest
    else if c = ',' then [] :: reSplitSep rest
    else reSplitTok [c] rest

end

/-- `re.split(r'\s+|\s*,\s*', s)`: scanning left to right, the
alternation matches a (maximal) whitespace run, or a comma with
surrounding whitespace; empty tokens between adjacent separators are
kept. -/
def reSplitWsComma (cs : List Char) : List (List Char) := reSplitTok [] cs

/-! ## Line matchers (the regexes of molecule.py lines 162-173) -/

/-- `^\s*#` via `comment.match`. -/
def matchComment (cs : List Char) : Bool :=
  match stripLead cs with
  | c :: _ => c = '#'
  | [] => false

/-- `^\s*$` via `blank.match`. -/
def matchBlank (cs : List Char) : Bool := (stripLead cs).isEmpty

/-- Shared front of the two unit-directive regexes:
`^\s*units?[\s=]+` case-insensitively; returns the lower-cased
remainder on success. -/
def matchUnitsHead (cs : List Char) : Option (List Char) :=
  match (stripLead cs).map Char.toLower with
  | 'u' :: 'n' :: 'i' :: 't' :: rest =>
    let rest1 := match rest with
      | 's' :: r => r
      | _ => rest
    let seps := rest1.takeWhile (fun c => isPySpace c || c = '=')
    if seps.isEmpty then none
    else some (rest1.dropWhile (fun c => isPySpace c || c = '='))
  | _ => none

/-- `^\s*units?[\s=]+(bohr|au|a.u.)\s*$` (IGNORECASE); the `.` in
`a.u.` matches any character. -/
def matchBohr (cs : List Char) : Bool :=
  match matchUnitsHead cs with
  | none => false
  | some rest =>
    (match rest with
     | 'b' :: 'o' :: 'h' :: 'r' :: r => r.all isPySpace
     | _ => false) ||
    (match rest with
     | 'a' :: 'u' :: r => r.all isPySpace
     | _ => false) ||
    (match rest with
     | 'a' :: _ :: 'u' :: _ :: r => r.all isPySpace
     | _ => false)

/-- `^\s*units?[\s=]+(ang|angstrom)\s*$` (IGNORECASE). -/
def matchAng (cs : List Char) : Bool :=
  match matchUnitsHead cs with
  | none => false
  | some rest =>
    (match rest with
     | 'a' :: 'n' :: 'g' :: r => r.all isPySpace
     | _ => false) ||
    (match rest with
     | 'a' :: 'n' :: 'g' :: 's' :: 't' :: 'r' :: 'o' :: 'm' :: r => r.all isPySpace
     | _ => false)

/-- `^\s*(-?\d+)\s+(\d+)\s*$` via `cgmp.match`; returns (charge,
multiplicity) as Python ints. -/
def matchCgmp (cs : List Char) : Option (Int × Int) :=
  let cs1 := stripLead cs
  let (neg, cs2) : Bool × List Char :=
    match cs1 with
    | '-' :: r => (true, r)
    | _ => (false, cs1)
  let d1 := cs2.takeWhile Char.isDigit
  let cs3 := cs2.dropWhile Char.isDigit
  if d1.isEmpty then none
  else
    let ws := cs3.takeWhile isPySpace
    let cs4 := cs3.dropWhile isPySpace
    if ws.isEmpty then none
    else
      let d2 := cs4.takeWhile Char.isDigit
      let cs5 := cs4.dropWhile Char.isDigit
      if d2.isEmpty then none
      else if cs5.all isPySpace then
        some ((if neg then -(digitsToNat d1 : Int) else (digitsToNat d1 : Int)),
              (digitsToNat d2 : Int))
      else none

/-- `^\s*--\s*$` via `frag.match`. -/
def matchFrag (cs : List Char) : Bool :=
  match stripLead cs with
  | '-' :: '-' :: r => r.all isPySpace
  | _ => false

/-- Prefix match of
`[-+]?(?:(?:\d*\.\d+)|(?:\d+\.?))(?:[Ee][+-]?\d+)?`
(`realNumber.match`, a prefix test in Python). -/
def matchesRealNumber (cs : List Char) : Bool :=
  let cs1 := match cs with
    | '+' :: r => r
    | '-' :: r => r
    | _ => cs
  let ds := cs1.takeWhile Char.isDigit
  let r1 := cs1.dropWhile Char.isDigit
  (match r1 with
   | '.' :: r2 => !(r2.takeWhile Char.isDigit).isEmpty
   | _ => false) ||
  !ds.isEmpty

/-- Python `float(s)` on a token without surrounding whitespace:
`[sign] (digits [. digits*] | . digits+) [e [sign] digits+]`,
returning the exact rational value; none models an uncaught
ValueError. -/
def parseFloat (cs : List Char) : Option ℚ :=
  let (sgn, cs1) : ℚ × List Char :=
    match cs with
    | '+' :: r => (1, r)
    | '-' :: r => (-1, r)
    | _ => (1, cs)
  let ids := cs1.takeWhile Char.isDigit
  let r1 := cs1.dropWhile Char.isDigit
  let mantissa? : Option (ℚ × List Char) :=
    match r1 with
    | '.' :: r2 =>
      let fds := r2.takeWhile Char.isDigit
      let r3 := r2.dropWhile Char.isDigit
      if ids.isEmpty && fds.isEmpty then none
      else some ((digitsToNat ids : ℚ) + (digitsToNat fds : ℚ) / 10 ^ fds.length, r3)
    | _ =>
      if ids.isEmpty then none
      else some ((digitsToNat ids : ℚ), r1)
  match mantissa? with
  | none => none
  | some (mant, rest) =>
    match rest with
    | [] => some (sgn * mant)
    | e :: r4 =>
      if e = 'e' || e = 'E' then
        let (esgn, r5) : Bool × List Char :=
          match r4 with
          | '+' :: r => (false, r)
          | '-' :: r => (true, r)
          | _ => (false, r4)
        let eds := r5.takeWhile Char.isDigit
        let r6 := r5.dropWhile Char.isDigit
        if eds.isEmpty || !r6.isEmpty then none
        else
          let p : ℚ := 10 ^ digitsToNat eds
          some (sgn * (if esgn then mant / p else mant * p))
      else none

/-! ## The atom-token regex (molecule.py lines 167-169)

`^(?:(?P<gh1>@)|(?P<gh2>Gh\())?(?P<label>(?P<symbol>[A-Z]{1,3})(?:(_\w+)|(\d+))?)(?(gh2)\))(?:@(?P<mass>\d+\.\d+))?$`
with IGNORECASE, fully anchored.  Alternatives are tried in regex
order with backtracking (ghost marker first, longer symbols first,
underscore suffix before digit suffix before no suffix). -/

structure AtomTok where
  gh : Bool
  symbol : List Char
  label : List Char
  mass : Option ℚ
  deriving DecidableEq, Repr

/-- Match `(?:@(?P<mass>\d+\.\d+))?$` against the whole remainder:
returns `some none` for an empty remainder, `some (some q)` for a
well-formed mass suffix, `none` otherwise. -/
def massEnd (cs : List Char) : Option (Option ℚ) :=
  match cs with
  | [] => some none
  | '@' :: r =>
    let d1 := r.takeWhile Char.isDigit
    let r1 := r.dropWhile Char.isDigit
    if d1.isEmpty then none
    else
      match r1 with
      | '.' :: r2 =>
        let d2 := r2.takeWhile Char.isDigit
        let r3 := r2.dropWhile Char.isDigit
        if d2.isEmpty || !r3.isEmpty then none
        else some (some ((digitsToNat d1 : ℚ) + (digitsToNat d2 : ℚ) / 10 ^ d2.length))
      | _ => none
  | _ => none

/-- Finish a candidate match: `(?(gh2)\))` then the optional mass
suffix then end of string. -/
def finishTok (gh needParen : Bool) (sym suffix rest : List Char) : Option AtomTok :=
  let rest1? : Option (List Char) :=
    if needParen then
      match rest with
      | ')' :: r => some r
      | _ => none
    else some rest
  match rest1? with
  | none => none
  | some rest1 =>
    match massEnd rest1 with
    | none => none
    | some m => some { gh := gh, symbol := sym, label := sym ++ suffix, mass := m }

/-- Try one symbol length `k` (the `[A-Z]{1,3}` candidate) followed by
the suffix alternatives `(_\w+) | (\d+) | nothing` in regex order. -/
def tryLabelK (gh needParen : Bool) (cs : List Char) (k : ℕ) : Option AtomTok :=
  let sym := cs.take k
  if sym.length = k && sym.all Char.isAlpha then
    let rest := cs.drop k
    let altA : Option AtomTok :=
      match rest with
      | '_' :: r =>
        let w := r.takeWhile isWordChar
        let r2 := r.dropWhile isWordChar
        if w.isEmpty then none else finishTok gh needParen sym ('_' :: w) r2
      | _ => none
    let altB : Option AtomTok :=
      let d := rest.takeWhile Char.isDigit
      let r2 := rest.dropWhile Char.isDigit
      if d.isEmpty then none else finishTok gh needParen sym d r2
    (altA <|> altB) <|> finishTok gh needParen sym [] rest
  else none

/-- The label part with greedy symbol length (3, then 2, then 1). -/
def tryLabel (gh needParen : Bool) (cs : List Char) : Option AtomTok :=
  (tryLabelK gh needParen cs 3 <|> tryLabelK gh needParen cs 2) <|>
    tryLabelK gh needParen cs 1

/-- `atom.match` on a whole token, with the ghost-marker alternatives
tried in regex order. -/
def atomMatch (cs : List Char) : Option AtomTok :=
  let gh1 : Option AtomTok :=
    match cs with
    | '@' :: r => tryLabel true false r
    | _ => none
  let gh2 : Option AtomTok :=
    match cs.map Char.toLower with
    | 'g' :: 'h' :: '(' :: _ => tryLabel true true (cs.drop 3)
    | _ => none
  (gh1 <|> gh2) <|> tryLabel false false cs

/-! ## Constants tables -/

/-- Modelled from the spec: the Constants Table collaborator mapping
element symbol to atomic number (`constants.el2z`, not under src/);
keys are upper-case element symbols, restricted here to the elements
appearing in the repository sample data. -/
def el2z : List (String × ℕ) :=
  [("H", 1), ("HE", 2), ("C", 6), ("N", 7), ("O", 8), ("NE", 10)]

/-- Modelled from the spec: the Constants Table collaborator mapping
element symbol to standard mass (`constants.el2masses`, not under
src/); same key set as `el2z`. -/
def el2masses : List (String × ℚ) :=
  [("H", 100782503207 / 100000000000),
   ("HE", 4002603254150 / 1000000000000),
   ("C", 12),
   ("N", 1400307400480 / 100000000000),
   ("O", 1599491461956 / 100000000000),
   ("NE", 1999244017540 / 100000000000)]

/-! ## Pass 1 of `_molecule_from_string_psi4` (molecule.py lines 175-227) -/

structure Pass1State where
  charge : ℚ
  multiplicity : Int
  fragment_charges : List ℚ
  fragment_multiplicities : List Int
  ifrag : ℕ
  glines : List String
  unit_conversion : ℚ
  deriving DecidableEq, Repr

/-- Initial pass-1 state: the `__init__` defaults plus the assumed
angstrom conversion of line 180. -/
def pass1Init : Pass1State :=
  { charge := 0, multiplicity := 1, fragment_charges := [],
    fragment_multiplicities := [], ifrag := 0, glines := [],
    unit_conversion := 1 / bohr2angstroms }

/-- One iteration of the first `for line in lines` loop: the
if/elif chain of lines 182-220 in source order. -/
def pass1Line (st : Pass1State) (line : String) : Except MolError Pass1State :=
  let cs := line.toList
  if matchComment cs || matchBlank cs then .ok st
  else if matchBohr cs then .ok { st with unit_conversion := 1 }
  else if matchAng cs then .ok st
  else
    match matchCgmp cs with
    | some (tempCharge, tempMultiplicity) =>
      let st1 :=
        if st.ifrag = 0 then
          { st with charge := (tempCharge : ℚ), multiplicity := tempMultiplicity }
        else st
      .ok { st1 with
            fragment_charges := st1.fragment_charges ++ [(tempCharge : ℚ)],
            fragment_multiplicities := st1.fragment_multiplicities ++ [tempMultiplicity] }
    | none =>
      if matchFrag cs then
        let st1 :=
          if st.ifrag < st.fragment_charges.length then st
          else
            { st with fragment_charges := st.fragment_charges ++ [0],
                      fragment_multiplicities := st.fragment_multiplicities ++ [1] }
        .ok { st1 with ifrag := st1.ifrag + 1, glines := st1.glines ++ [line] }
      else
        match pySplit cs with
        | [] => .error (.indexError "line.split")
        | tok :: _ =>
          if (atomMatch tok).isSome then .ok { st with glines := st.glines ++ [line] }
          else .error (.typeError
            ("Molecule:create_molecule_from_string: Unidentifiable line in geometry specification: "
              ++ line))

/-- The first loop itself. -/
def pass1Run : Pass1State → List String → Except MolError Pass1State
  | st, [] => .ok st
  | st, l :: ls =>
    match pass1Line st l with
    | .error e => .error e
    | .ok st1 => pass1Run st1 ls

/-- The trailing `try: self.fragment_charges[ifrag] except: append`
of lines 222-227. -/
def pass1Fix (st : Pass1State) : Pass1State :=
  if st.ifrag < st.fragment_charges.length then st
  else
    { st with fragment_charges := st.fragment_charges ++ [0],
              fragment_multiplicities := st.fragment_multiplicities ++ [1] }

def pass1 (lines : List String) : Except MolError Pass1State :=
  (pass1Run pass1Init lines).map pass1Fix

/-! ## Pass 2 of `_molecule_from_string_psi4` (molecule.py lines 229-309) -/

structure Pass2State where
  ifrag : ℕ
  iatom : ℕ
  tempfrag : List ℕ
  symbols : List String
  geometry : List Vec3
  tmpMass : List ℚ
  real : List Bool
  fragments : List (List ℕ)
  custom_masses : Bool
  deriving DecidableEq, Repr

def pass2Init : Pass2State :=
  { ifrag := 0, iatom := 0, tempfrag := [], symbols := [], geometry := [],
    tmpMass := [], real := [], fragments := [], custom_masses := false }

/-- Python `list(range(a, b + 1))`. -/
def rangeClosed (a b : ℕ) : List ℕ := List.range' a (b + 1 - a)

/-- Parse one coordinate entry: the `realNumber.match` guard followed
by Python `float()` (lines 282-295); a guard failure is a TypeError, a
float() failure an uncaught ValueError. -/
def parseCoord (entry : List Char) : Except MolError ℚ :=
  if matchesRealNumber entry then
    match parseFloat entry with
    | some v => .ok v
    | none => .error (.valueError "could not convert string to float")
  else
    .error (.typeError "Molecule::create_molecule_from_string: Unidentifiable entry")

/-- One iteration of the `for line in glines` loop (lines 240-302). -/
def pass2Line (st : Pass2State) (line : String) : Except MolError Pass2State :=
  let cs := line.toList
  if matchFrag cs then
    match st.tempfrag with
    | [] => .error (.indexError "tempfrag")
    | t0 :: rest =>
      let tl := (t0 :: rest).getLastD t0
      .ok { st with ifrag := st.ifrag + 1,
                    fragments := st.fragments ++ [rangeClosed t0 tl],
                    real := st.real ++ List.replicate (tl + 1 - t0) true,
                    tempfrag := [] }
  else
    let entries := reSplitWsComma (pyStrip cs)
    match pySplit cs with
    | [] => .error (.indexError "line.split")
    | tok :: _ =>
      match atomMatch (tok.map Char.toUpper) with
      | none => .error (.attributeError "NoneType object has no attribute group")
      | some atomm =>
        let atomSym := String.mk atomm.symbol
        match el2z.lookup atomSym with
        | none => .error (.typeError
            ("Molecule:create_molecule_from_string: Illegal atom symbol in geometry specification: "
              ++ atomSym))
        | some _zVal =>
          let massCustom : Except MolError (ℚ × Bool) :=
            match atomm.mass with
            | none =>
              match el2masses.lookup atomSym with
              | some q => .ok (q, st.custom_masses)
              | none => .error (.keyError atomSym)
            | some q => .ok (q, true)
          match massCustom with
          | .error e => .error e
          | .ok (atomMass, custom) =>
            -- zVal and charge are also computed in the source (lines
            -- 274-277) and never used afterwards.
            match entries with
            | [_, e1, e2, e3] =>
              match parseCoord e1 with
              | .error e => .error e
              | .ok xval =>
                match parseCoord e2 with
                | .error e => .error e
                | .ok yval =>
                  match parseCoord e3 with
                  | .error e => .error e
                  | .ok zval =>
                    .ok { st with
                          symbols := st.symbols ++ [atomSym],
                          tmpMass := st.tmpMass ++ [atomMass],
                          custom_masses := custom,
                          tempfrag := st.tempfrag ++ [st.iatom],
                          geometry := st.geometry ++ [⟨xval, yval, zval⟩],
                          iatom := st.iatom + 1 }
            | _ => .error (.typeError
                ("Molecule::create_molecule_from_string: Illegal geometry specification line : "
                  ++ line))

def pass2Run : Pass2State → List String → Except MolError Pass2State
  | st, [] => .ok st
  | st, l :: ls =>
    match pass2Line st l with
    | .error e => .error e
    | .ok st1 => pass2Run st1 ls

/-- The epilogue of `_molecule_from_string_psi4` (lines 304-309):
store custom masses, scale the geometry by the unit conversion, close
the last fragment. -/
def pass2Fin (p1 : Pass1State) (st : Pass2State) : Except MolError Molecule :=
  match st.tempfrag with
  | [] => .error (.indexError "tempfrag")
  | t0 :: rest =>
    let tl := (t0 :: rest).getLastD t0
    .ok { symbols := st.symbols,
          geometry := st.geometry.map (fun v =>
            ⟨v.x * p1.unit_conversion, v.y * p1.unit_conversion, v.z * p1.unit_conversion⟩),
          masses := if st.custom_masses then st.tmpMass else [],
          name := "", comment := "",
          charge := p1.charge, multiplicity := p1.multiplicity,
          real := st.real ++ List.replicate (tl + 1 - t0) true,
          fragments := st.fragments ++ [rangeClosed t0 tl],
          fragment_charges := p1.fragment_charges,
          fragment_multiplicities := p1.fragment_multiplicities,
          provenance := [], custom_masses := st.custom_masses }

/-- `re.split('\n', text)`, keeping empty lines. -/
def splitNlAux : List Char → List Char → List (List Char)
  | [], acc => [acc.reverse]
  | c :: rest, acc =>
    if c = '\n' then acc.reverse :: splitNlAux rest []
    else splitNlAux rest (c :: acc)

def splitNl (text : String) : List String :=
  (splitNlAux text.toList []).map String.mk

/-- `Molecule._molecule_from_string_psi4` (without the separate
orientation step run afterwards by the constructor, which only
replaces `geometry` via the Orientation Engine). -/
def molecule_from_string_psi4 (text : String) : Except MolError Molecule :=
  match pass1 (splitNl text) with
  | .error e => .error e
  | .ok p1 =>
    match pass2Run pass2Init p1.glines with
    | .error e => .error e
    | .ok st => pass2Fin p1 st

/-! ## `Molecule._molecule_from_numpy` (molecule.py lines 122-153) -/

/-- `Molecule._molecule_from_numpy`.  The row type enforces the
`arr.shape[1] == 4` check; `frags` is the fragment-boundary list.  As
in the source, `symbols`, `masses` and the molecule charge and
multiplicity are never assigned, so they keep their `__init__`
defaults. -/
def molecule_from_numpy (arr : List (ℚ × ℚ × ℚ × ℚ)) (frags : List ℕ)
    (units : String) : Except MolError Molecule :=
  let const? : Except MolError ℚ :=
    if units = "bohr" then .ok 1
    else if units = "angstrom" then .ok (1 / bohr2angstroms)
    else .error (.keyError ("Unit " ++ units ++ " not understood"))
  match const? with
  | .error e => .error e
  | .ok c =>
    let n := arr.length
    let frags2 := if frags ≠ [] ∧ frags.getLastD 0 ≠ n then frags ++ [n] else frags
    let built := frags2.foldl
      (fun (acc : List (List ℕ) × ℕ × List ℚ × List Int) fsplit =>
        (acc.1 ++ [List.range' acc.2.1 (fsplit - acc.2.1)], fsplit,
         acc.2.2.1 ++ [0], acc.2.2.2 ++ [1]))
      ([], 0, [], [])
    .ok { Molecule.init with
          geometry := arr.map (fun r => ⟨r.2.1 * c, r.2.2.1 * c, r.2.2.2 * c⟩),
          real := arr.map (fun _ => true),
          fragments := built.1,
          fragment_charges := built.2.2.1,
          fragment_multiplicities := built.2.2.2 }

/-! ## `Molecule.get_fragment` (molecule.py lines 426-491) -/

/-- Checked list indexing: a Python IndexError tagged with the access
site. -/
def listGet {α : Type} (l : List α) (i : ℕ) (site : String) : Except MolError α :=
  match l.get? i with
  | some v => .ok v
  | none => .error (.indexError site)

/-- Accumulator for the two fragment-copy loops of `get_fragment`. -/
structure FragAcc where
  symbols : List String
  masses : List ℚ
  real : List Bool
  fragments : List (List ℕ)
  fragment_charges : List ℚ
  fragment_multiplicities : List Int
  geom_blocks : List (List Vec3)
  frag_start : ℕ
  deriving DecidableEq, Repr

def fragAccInit : FragAcc :=
  { symbols := [], masses := [], real := [], fragments := [],
    fragment_charges := [], fragment_multiplicities := [], geom_blocks := [],
    frag_start := 0 }

/-- `self.geometry[self.fragments[frag]]`: NumPy fancy indexing,
checking every index. -/
def getRows (g : List Vec3) : List ℕ → Except MolError (List Vec3)
  | [] => .ok []
  | i :: is =>
    match listGet g i "geometry" with
    | .error e => .error e
    | .ok r =>
      match getRows g is with
      | .error e => .error e
      | .ok rs => .ok (r :: rs)

/-- The `for idx in self.fragments[frag]` body (lines 455-458 and
475-478): read `symbols[idx]` then `masses[idx]` for each atom. -/
def getAtoms (m : Molecule) : List ℕ → Except MolError (List (String × ℚ))
  | [] => .ok []
  | i :: is =>
    match listGet m.symbols i "symbols" with
    | .error e => .error e
    | .ok s =>
      match listGet m.masses i "masses" with
      | .error e => .error e
      | .ok ma =>
        match getAtoms m is with
        | .error e => .error e
        | .ok rest => .ok ((s, ma) :: rest)

/-- One fragment-copy loop of `get_fragment` (lines 451-464 for the
real blocks, 471-484 for the ghost blocks; the two loop bodies are
identical except for the `real` flag appended). -/
def fragLoop (m : Molecule) (flag : Bool) : FragAcc → List ℕ → Except MolError FragAcc
  | acc, [] => .ok acc
  | acc, frag :: rest =>
    match listGet m.fragments frag "fragments" with
    | .error e => .error e
    | .ok fragIdxs =>
      let frag_size := fragIdxs.length
      match getRows m.geometry fragIdxs with
      | .error e => .error e
      | .ok rows =>
        match getAtoms m fragIdxs with
        | .error e => .error e
        | .ok pairs =>
          match listGet m.fragment_charges frag "fragment_charges" with
          | .error e => .error e
          | .ok fc =>
            match listGet m.fragment_multiplicities frag "fragment_multiplicities" with
            | .error e => .error e
            | .ok fm =>
              fragLoop m flag
                { symbols := acc.symbols ++ pairs.map Prod.fst,
                  masses := acc.masses ++ pairs.map Prod.snd,
                  real := acc.real ++ List.replicate frag_size flag,
                  fragments := acc.fragments ++ [List.range' acc.frag_start frag_size],
                  fragment_charges := acc.fragment_charges ++ [fc],
                  fragment_multiplicities := acc.fragment_multiplicities ++ [fm],
                  geom_blocks := acc.geom_blocks ++ [rows],
                  frag_start := acc.frag_start + frag_size } rest

/-- `Molecule.get_fragment` (without the optional orientation step at
line 489, which only replaces `geometry` via the Orientation Engine).
The int-or-list normalisation and the None default for `ghost` are
subsumed by the list-typed signature. -/
def get_fragment (m : Molecule) (real : List ℕ) (ghost : List ℕ := []) :
    Except MolError Molecule :=
  if real.any (fun i => ghost.contains i) then
    .error (.typeError "Molecule:get_fragment: real and ghost sets are overlaping!")
  else
    match fragLoop m true fragAccInit real with
    | .error e => .error e
    | .ok acc1 =>
      let retCharge : ℚ := acc1.fragment_charges.sum
      let retMult : Int := (acc1.fragment_multiplicities.map (fun x => x - 1)).sum
      match fragLoop m false acc1 ghost with
      | .error e => .error e
      | .ok acc2 =>
        if acc2.geom_blocks = [] then
          .error (.valueError "need at least one array to concatenate")
        else
          .ok { symbols := acc2.symbols,
                geometry := acc2.geom_blocks.flatten,
                masses := acc2.masses,
                name := m.name, comment := "",
                charge := retCharge, multiplicity := retMult,
                real := acc2.real,
                fragments := acc2.fragments,
                fragment_charges := acc2.fragment_charges,
                fragment_multiplicities := acc2.fragment_multiplicities,
                provenance := [], custom_masses := false }

/-! ## Canonical serializer and hasher (molecule.py lines 534-579) -/

/-- A JSON value, the codomain of `to_json` entries. -/
inductive JValue where
  | jnum (q : ℚ)
  | jint (n : Int)
  | jbool (b : Bool)
  | jstr (s : String)
  | jarr (xs : List JValue)
  | jobj (kvs : List (String × JValue))

/-- Modelled from the spec: `hash_helpers.float_prep` (not under
src/), quantization of a floating field to `noise` decimal places. -/
def float_prep (noise : ℕ) (q : ℚ) : ℚ :=
  (round (q * 10 ^ noise) : ℚ) / 10 ^ noise

/-- The structural (chemically significant) attributes of the
interchange shape. -/
def struct_fields : List String :=
  ["symbols", "geometry", "masses", "charge", "multiplicity", "real",
   "fragments", "fragment_charges", "fragment_multiplicities"]

/-- The descriptive metadata attributes of the interchange shape. -/
def meta_fields : List String := ["name", "comment", "provenance"]

/-- Modelled from the spec: `fields.valid_fields["molecule"]` (not
under src/), the declared attribute set of the structured-record
interchange shape, in the order given in the spec (metadata last). -/
def valid_fields : List String := struct_fields ++ meta_fields

/-- The body of the `for field in fields.valid_fields["molecule"]`
loop of `to_json` (lines 541-560) for one field: `none` when the field
is skipped (empty sequence, or masses without the custom-mass flag),
otherwise the emitted value with the per-field quantization. -/
def jsonEntry (m : Molecule) (field : String) : Option JValue :=
  if field = "symbols" then
    if m.symbols.isEmpty then none
    else some (.jarr (m.symbols.map .jstr))
  else if field = "geometry" then
    if m.geometry.isEmpty then none
    else some (.jarr (m.geometry.map (fun v =>
      .jarr [.jnum (float_prep GEOMETRY_NOISE v.x),
             .jnum (float_prep GEOMETRY_NOISE v.y),
             .jnum (float_prep GEOMETRY_NOISE v.z)])))
  else if field = "masses" then
    if m.masses.isEmpty then none
    else if m.custom_masses = false then none
    else some (.jarr (m.masses.map (fun q => .jnum (float_prep MASS_NOISE q))))
  else if field = "charge" then
    some (.jnum (float_prep CHARGE_NOISE m.charge))
  else if field = "multiplicity" then
    some (.jint m.multiplicity)
  else if field = "real" then
    if m.real.isEmpty then none
    else some (.jarr (m.real.map .jbool))
  else if field = "fragments" then
    if m.fragments.isEmpty then none
    else some (.jarr (m.fragments.map (fun fr => .jarr (fr.map (fun i => .jint i)))))
  else if field = "fragment_charges" then
    if m.fragment_charges.isEmpty then none
    else some (.jarr (m.fragment_charges.map (fun q => .jnum (float_prep CHARGE_NOISE q))))
  else if field = "fragment_multiplicities" then
    if m.fragment_multiplicities.isEmpty then none
    else some (.jarr (m.fragment_multiplicities.map .jint))
  else if field = "name" then some (.jstr m.name)
  else if field = "comment" then some (.jstr m.comment)
  else if field = "provenance" then
    some (.jobj (m.provenance.map (fun p => (p.1, .jstr p.2))))
  else none

/-- The `to_json` loop restricted to a field list. -/
def to_json_part (m : Molecule) (fs : List String) : List (String × JValue) :=
  fs.filterMap (fun f => (jsonEntry m f).map (fun v => (f, v)))

/-- `Molecule.to_json`: the insertion-ordered dict as an association
list. -/
def to_json (m : Molecule) : List (String × JValue) :=
  to_json_part m valid_fields

/-- Modelled from the spec: `schema.get_hash_fields("molecule")` (not
under src/), the declared ordered hash-field subset. -/
def hash_fields : List String :=
  ["symbols", "masses", "real", "fragments", "fragment_charges",
   "fragment_multiplicities", "charge", "multiplicity", "geometry"]

mutual

/-- Modelled from the spec: the canonical text encoding
(`json.dumps`) of one emitted value. -/
def jsonDumps : JValue → String
  | .jnum q => toString q
  | .jint n => toString n
  | .jbool b => if b then "true" else "false"
  | .jstr s => "\"" ++ s ++ "\""
  | .jarr xs => "[" ++ jsonDumpsList xs ++ "]"
  | .jobj kvs => "\x7b" ++ jsonDumpsKVs kvs ++ "\x7d"

def jsonDumpsList : List JValue → String
  | [] => ""
  | [x] => jsonDumps x
  | x :: y :: rest => jsonDumps x ++ ", " ++ jsonDumpsList (y :: rest)

def jsonDumpsKVs : List (String × JValue) → String
  | [] => ""
  | [(k, v)] => "\"" ++ k ++ "\": " ++ jsonDumps v
  | (k, v) :: y :: rest =>
    "\"" ++ k ++ "\": " ++ jsonDumps v ++ ", " ++ jsonDumpsKVs (y :: rest)

end

/-- The loop of `get_hash` (lines 572-576): concatenate the canonical
encodings of the hash fields present in `to_json`. -/
def hashConcat (m : Molecule) : String :=
  hash_fields.foldl
    (fun concat field =>
      match (to_json m).lookup field with
      | none => concat
      | some v => concat ++ jsonDumps v)
    ""

/-- Modelled from the spec: the 160-bit content digest over the
concatenation, rendered in hexadecimal.  The claims depend only on
equality of digest inputs, so the digest is modelled as an injective
stand-in. -/
def sha1hex (s : String) : String := s

/-- `Molecule.get_hash`. -/
def get_hash (m : Molecule) : String := sha1hex (hashConcat m)

/-! ## Sign fixing in `orient_molecule` (molecule.py lines 403-424)

The centering, inertia-tensor and eigendecomposition steps (lines
386-401) are floating-point linear algebra and are not embedded; the
deterministic sign-fixing loop that follows them is embedded here as a
standalone transformation of the projected geometry, which is exactly
the scope of the phase-check loop in the source. -/

/-- `geom_noise = 10**(-GEOMETRY_NOISE)` (line 408). -/
def geom_noise : ℚ := 1 / 10 ^ GEOMETRY_NOISE

def Vec3.get (v : Vec3) : Fin 3 → ℚ
  | 0 => v.x
  | 1 => v.y
  | 2 => v.z

def Vec3.set (v : Vec3) : Fin 3 → ℚ → Vec3
  | 0, q => { v with x := q }
  | 1, q => { v with y := q }
  | 2, q => { v with z := q }

/-- `self.geometry[:, x] *= -1`. -/
def negCol (g : List Vec3) (a : Fin 3) : List Vec3 :=
  g.map (fun v => v.set a (-(v.get a)))

/-- One `for x in range(3)` iteration of the sign-fixing loop for atom
`num` (lines 411-421): skip a fixed axis, skip a value inside the
noise tolerance, otherwise fix the axis and negate its column when the
value is negative. -/
def axisStep (g : List Vec3) (pc : Fin 3 → Bool) (num : ℕ) (a : Fin 3) :
    List Vec3 × (Fin 3 → Bool) :=
  if pc a then (g, pc)
  else
    match g.get? num with
    | none => (g, pc)
    | some row =>
      let val := row.get a
      if |val| < geom_noise then (g, pc)
      else
        let pc1 : Fin 3 → Bool := fun j => if j = a then true else pc j
        (if val < 0 then negCol g a else g, pc1)

/-- The inner axis loop for one atom, axes in order 0, 1, 2. -/
def atomStep (g : List Vec3) (pc : Fin 3 → Bool) (num : ℕ) :
    List Vec3 × (Fin 3 → Bool) :=
  let s0 := axisStep g pc num 0
  let s1 := axisStep s0.1 s0.2 num 1
  axisStep s1.1 s1.2 num 2

/-- The outer `for num in range(self.geometry.shape[0])` loop with the
`if sum(phase_check) == 3: break` early exit (lines 409-424). -/
def phaseGo : List Vec3 → (Fin 3 → Bool) → ℕ → ℕ → List Vec3
  | g, _, _, 0 => g
  | g, pc, num, fuel + 1 =>
    let s := atomStep g pc num
    if s.2 0 && s.2 1 && s.2 2 then s.1
    else phaseGo s.1 s.2 (num + 1) fuel

/-- The sign-fixing stage of `orient_molecule` applied to the
projected geometry. -/
def orient_phase_fix (g : List Vec3) : List Vec3 :=
  phaseGo g (fun _ => false) 0 g.length

/-- Definition following the claim wording: scanning atoms in their
original order, does the first coordinate on axis `a` that satisfies
`decides` exist and is it negative (so that the column must be
negated)? -/
def axisDecision (decides : ℚ → Bool) (g : List Vec3) (a : Fin 3) : Bool :=
  match g.find? (fun row => decides (row.get a)) with
  | some row => decide (row.get a < 0)
  | none => false

/-- Definition following the claim wording: per-axis independent sign
fixing, negating exactly the columns whose deciding coordinate is
negative and leaving undecided axes unchanged.  `decides` is the
tolerance test applied to a coordinate. -/
def claimed_sign_fix (decides : ℚ → Bool) (g : List Vec3) : List Vec3 :=
  let n0 := axisDecision decides g 0
  let n1 := axisDecision decides g 1
  let n2 := axisDecision decides g 2
  g.map (fun v => ⟨if n0 then -v.x else v.x,
                   if n1 then -v.y else v.y,
                   if n2 then -v.z else v.z⟩)

/-- The tolerance test as the claim states it: the magnitude strictly
exceeds the tolerance. -/
def strictTol (q : ℚ) : Bool := decide (geom_noise < |q|)

/-- The tolerance test the code implements: the magnitude is at least
the tolerance (the code skips only when `abs(val) < geom_noise`). -/
def geTol (q : ℚ) : Bool := decide (geom_noise ≤ |q|)

/-! ## Claim-wording definitions and concrete inputs -/

deriving instance DecidableEq for Except

/-- The Python exception class of an embedded error. -/
def MolError.className : MolError → String
  | .typeError _ => "TypeError"
  | .keyError _ => "KeyError"
  | .indexError _ => "IndexError"
  | .valueError _ => "ValueError"
  | .attributeError _ => "AttributeError"

/-- Definition following the claim wording for the unit rule: only the
first unit directive appearing before any atom line takes effect;
otherwise the default (angstrom) factor applies. -/
def claimedUnitFactor : List String → ℚ
  | [] => 1 / bohr2angstroms
  | l :: ls =>
    let cs := l.toList
    if matchBohr cs then 1
    else if matchAng cs then 1 / bohr2angstroms
    else if (match pySplit cs with
             | [] => false
             | tok :: _ => (atomMatch tok).isSome) then 1 / bohr2angstroms
    else claimedUnitFactor ls

/-- The water-dimer numeric table of the repository test suite
(test_molecule.py lines 8-10): rows (Z, x, y, z) in angstrom. -/
def water_dimer_np : List (ℚ × ℚ × ℚ × ℚ) :=
  [(8, -1551007/1000000, -114520/1000000, 0),
   (1, -1934259/1000000, 762503/1000000, 0),
   (1, -599677/1000000, 40712/1000000, 0),
   (8, 1350625/1000000, 111469/1000000, 0),
   (1, 1680398/1000000, -373741/1000000, -758561/1000000),
   (1, 1680398/1000000, -373741/1000000, 758561/1000000)]

/-- The water-dimer entity of the repository test data
(test_water_minima_data): two real singlet fragments of three atoms
each, with per-atom masses populated. -/
def water_dimer_mol : Molecule :=
  { symbols := ["O", "H", "H", "O", "H", "H"],
    geometry :=
      [⟨281211080/100000000, 12557170/100000000, 0⟩,
       ⟨348216664/100000000, -155439981/100000000, 0⟩,
       ⟨100578203/100000000, -10925730/100000000, 0⟩,
       ⟨-268215280/100000000, -12325075/100000000, 0⟩,
       ⟨-327523824/100000000, 81341093/100000000, 143347255/100000000⟩,
       ⟨-327523824/100000000, 81341093/100000000, -143347255/100000000⟩],
    masses := [1599491461956/100000000000, 100782503207/100000000000,
               100782503207/100000000000, 1599491461956/100000000000,
               100782503207/100000000000, 100782503207/100000000000],
    name := "water dimer", comment := "",
    charge := 0, multiplicity := 1,
    real := [true, true, true, true, true, true],
    fragments := [[0, 1, 2], [3, 4, 5]],
    fragment_charges := [0, 0], fragment_multiplicities := [1, 1],
    provenance := [], custom_masses := false }

/-- A psi4-style parsed helium dimer: no custom masses, so `masses`
is empty, as `_molecule_from_string_psi4` leaves it. -/
def helium_dimer_mol : Molecule :=
  { symbols := ["HE", "HE"],
    geometry := [⟨0, 0, 0⟩, ⟨0, 0, 2⟩],
    masses := [], name := "", comment := "",
    charge := 0, multiplicity := 1,
    real := [true, true],
    fragments := [[0, 1]],
    fragment_charges := [0], fragment_multiplicities := [1],
    provenance := [], custom_masses := false }

/-! ## Claim theorems -/

unseal Rat.mul Rat.inv Rat.add Rat.sub in
/-- C1: the numeric-table construction path is claimed to yield an
entity with N symbols, at least one fragment, and the structural
invariants satisfied.  Evaluating `_molecule_from_numpy` on the
repository test array shows `symbols` and `masses` are never
populated (length 0 against 6 geometry rows), and that an empty
boundary list yields zero fragments, so the invariants
`len(symbols) == len(geometry)` and fragment coverage fail. -/
theorem numpy_construction_omits_symbols_and_fragments :
    ((molecule_from_numpy water_dimer_np [3] "angstrom").map
       (fun m => (m.symbols, m.masses, m.geometry.length, m.real.length)) =
      .ok ([], [], 6, 6)) ∧
    ((molecule_from_numpy water_dimer_np [3] "angstrom").map
       (fun m => (m.fragments, m.fragment_charges, m.fragment_multiplicities)) =
      .ok ([[0, 1, 2], [3, 4, 5]], [0, 0], [1, 1])) ∧
    ((molecule_from_numpy water_dimer_np [] "angstrom").map
       (fun m => (m.fragments, m.fragment_charges, m.geometry.length)) =
      .ok ([], [], 6)) := by
  refine ⟨by decide, by decide, by decide⟩

unseal Rat.mul Rat.inv Rat.add Rat.sub in
/-- C2: the claim (and spec) say atoms marked `@` or `Gh(...)` are
flagged `real=false`.  Evaluating the specification-text parser on a
block with one plain and one `@`-marked helium atom shows both atoms
come back `real=true` (the parser extends `real` with `True` for
every atom of every fragment), while the geometric row and symbol are
kept. -/
theorem psi4_ghost_atoms_flagged_real_true :
    (molecule_from_string_psi4 "He 0 0 0\n@He 0 0 2").map
      (fun m => (m.symbols, m.real, m.geometry)) =
    .ok (["HE", "HE"], [true, true],
         [⟨0, 0, 0⟩, ⟨0, 0, 200000000000 / 52917720859⟩]) := by decide

unseal Rat.mul Rat.inv Rat.add Rat.sub in
/-- C3: the claim (and spec) say the composed multiplicity is
1 + sum of (fragment_multiplicity - 1) over real-listed fragments.
Evaluating `get_fragment` on the water dimer, selecting one real
singlet fragment, yields multiplicity 0 (the code computes
`sum(x - 1)` without the leading 1), not the claimed 1. -/
theorem get_fragment_multiplicity_missing_plus_one :
    (get_fragment water_dimer_mol [0]).map
      (fun m => (m.multiplicity, m.fragment_multiplicities, m.symbols, m.charge)) =
    .ok (0, [1], ["O", "H", "H"], 0) := by decide

unseal Rat.mul Rat.inv Rat.add Rat.sub in
/-- C7 counterexample: the claim fixes an axis only when a coordinate
magnitude strictly exceeds the tolerance 10^-8.  On a geometry whose
first coordinate is exactly -10^-8, the code fixes the axis and
negates the column (it skips only magnitudes strictly below the
tolerance), while the claimed strict-tolerance scan leaves the axis
unchanged. -/
theorem sign_fix_boundary_magnitude_counterexample :
    orient_phase_fix [⟨-(1/100000000), 1, 1⟩] = [⟨1/100000000, 1, 1⟩] ∧
    claimed_sign_fix strictTol [⟨-(1/100000000), 1, 1⟩] =
      [⟨-(1/100000000), 1, 1⟩] ∧
    orient_phase_fix [⟨-(1/100000000), 1, 1⟩] ≠
      claimed_sign_fix strictTol [⟨-(1/100000000), 1, 1⟩] := by
  refine ⟨by decide, by decide, by decide⟩

unseal Rat.mul Rat.inv Rat.add Rat.sub in
/-- C9 counterexample: the claim says an overlapping real/ghost
selection raises a ValueError-class error; the code raises a
TypeError-class error (`get_fragment` line 444). -/
theorem get_fragment_overlap_raises_type_error_not_value_error :
    (get_fragment water_dimer_mol [0] [0]).mapError MolError.className =
      .error "TypeError" ∧
    "TypeError" ≠ "ValueError" := by
  exact ⟨by decide, by decide⟩

unseal Rat.mul Rat.inv Rat.add Rat.sub in
/-- C4 counterexample: the claim says only the first unit directive
appearing before any atom line takes effect, and a directive after
atom lines has no effect.  On a block whose only directive `units
bohr` follows the atom line, the code applies conversion factor 1
(the directive does take effect), while the claimed rule predicts the
default angstrom factor. -/
theorem unit_directive_after_atom_line_still_applies :
    ((pass1 ["He 1 0 0", "units bohr"]).map Pass1State.unit_conversion = .ok 1) ∧
    (claimedUnitFactor ["He 1 0 0", "units bohr"] = 1 / bohr2angstroms) ∧
    ((1 : ℚ) ≠ 1 / bohr2angstroms) ∧
    ((molecule_from_string_psi4 "He 1 0 0\nunits bohr").map Molecule.geometry =
      .ok [⟨1, 0, 0⟩]) := by
  refine ⟨by decide, by decide, by decide, by decide⟩

/-! ## Error-shape lemmas for `get_fragment` -/

theorem listGet_error {α : Type} (l : List α) (i : ℕ) (s : String) (e : MolError)
    (h : listGet l i s = .error e) : e = .indexError s := by
  unfold listGet at h
  cases hg : l.get? i with
  | none => rw [hg] at h; dsimp only at h; cases h; rfl
  | some v => rw [hg] at h; dsimp only at h; cases h

theorem getRows_index_error (g : List Vec3) :
    ∀ (idxs : List ℕ) (e : MolError),
      getRows g idxs = .error e → e = .indexError "geometry" := by
  intro idxs
  induction idxs with
  | nil => intro e h; simp [getRows] at h
  | cons i is ih =>
    intro e h
    unfold getRows at h
    cases h1 : listGet g i "geometry" with
    | error e1 => rw [h1] at h; dsimp only at h; cases h; exact listGet_error g i _ _ h1
    | ok r =>
      rw [h1] at h; dsimp only at h
      cases h2 : getRows g is with
      | error e2 => rw [h2] at h; dsimp only at h; cases h; exact ih _ h2
      | ok rs => rw [h2] at h; dsimp only at h; cases h

theorem getAtoms_index_error (m : Molecule) :
    ∀ (idxs : List ℕ) (e : MolError),
      getAtoms m idxs = .error e →
        e = .indexError "symbols" ∨ e = .indexError "masses" := by
  intro idxs
  induction idxs with
  | nil => intro e h; simp [getAtoms] at h
  | cons i is ih =>
    intro e h
    unfold getAtoms at h
    cases h1 : listGet m.symbols i "symbols" with
    | error e1 => rw [h1] at h; dsimp only at h; cases h; exact Or.inl (listGet_error _ i _ _ h1)
    | ok s =>
      rw [h1] at h; dsimp only at h
      cases h2 : listGet m.masses i "masses" with
      | error e2 => rw [h2] at h; dsimp only at h; cases h; exact Or.inr (listGet_error _ i _ _ h2)
      | ok ma =>
        rw [h2] at h; dsimp only at h
        cases h3 : getAtoms m is with
        | error e3 => rw [h3] at h; dsimp only at h; cases h; exact ih _ h3
        | ok rest => rw [h3] at h; dsimp only at h; cases h

theorem fragLoop_index_error (m : Molecule) (flag : Bool) :
    ∀ (l : List ℕ) (acc : FragAcc) (e : MolError),
      fragLoop m flag acc l = .error e → ∃ s, e = .indexError s := by
  intro l
  induction l with
  | nil => intro acc e h; simp [fragLoop] at h
  | cons frag rest ih =>
    intro acc e h
    unfold fragLoop at h
    cases h1 : listGet m.fragments frag "fragments" with
    | error e1 => rw [h1] at h; dsimp only at h; cases h; exact ⟨_, listGet_error _ frag _ _ h1⟩
    | ok idxs =>
      rw [h1] at h; dsimp only at h
      cases h2 : getRows m.geometry idxs with
      | error e2 =>
        rw [h2] at h; dsimp only at h; cases h
        exact ⟨"geometry", getRows_index_error _ _ _ h2⟩
      | ok rows =>
        rw [h2] at h; dsimp only at h
        cases h3 : getAtoms m idxs with
        | error e3 =>
          rw [h3] at h; dsimp only at h; cases h
          rcases getAtoms_index_error _ _ _ h3 with h4 | h4
          · exact ⟨"symbols", h4⟩
          · exact ⟨"masses", h4⟩
        | ok pairs =>
          rw [h3] at h; dsimp only at h
          cases h4 : listGet m.fragment_charges frag "fragment_charges" with
          | error e4 => rw [h4] at h; dsimp only at h; cases h; exact ⟨_, listGet_error _ frag _ _ h4⟩
          | ok fc =>
            rw [h4] at h; dsimp only at h
            cases h5 : listGet m.fragment_multiplicities frag "fragment_multiplicities" with
            | error e5 => rw [h5] at h; dsimp only at h; cases h; exact ⟨_, listGet_error _ frag _ _ h5⟩
            | ok fm => rw [h5] at h; dsimp only at h; exact ih _ _ h

theorem getRows_ok (g : List Vec3) :
    ∀ (idxs : List ℕ), (∀ i ∈ idxs, i < g.length) →
      ∃ rs, getRows g idxs = .ok rs := by
  intro idxs
  induction idxs with
  | nil => intro _; exact ⟨[], rfl⟩
  | cons i is ih =>
    intro h
    obtain ⟨rs, hrs⟩ := ih (fun j hj => h j (List.mem_cons_of_mem _ hj))
    have hi : i < g.length := h i (List.mem_cons_self i is)
    cases hg : g.get? i with
    | none =>
      rw [List.get?_eq_none] at hg
      omega
    | some r =>
      refine ⟨r :: rs, ?_⟩
      unfold getRows
      rw [show listGet g i "geometry" = .ok r from by unfold listGet; rw [hg], hrs]

/-- C10: for a source entity whose `masses` sequence is empty (no
custom-mass construction stores per-atom masses) and a nonempty
fragment whose atom indices are valid for `geometry` and `symbols`,
`get_fragment` selecting that fragment fails with an out-of-range
index access at the per-atom `masses` copy (`ret.masses.append(
self.masses[idx])`), so fragment composition needs one mass entry per
atom. -/
theorem get_fragment_fails_without_masses (m : Molecule) (p i0 : ℕ) (rest : List ℕ)
    (hm : m.masses = [])
    (hf : m.fragments.get? p = some (i0 :: rest))
    (hgeom : ∀ i ∈ i0 :: rest, i < m.geometry.length)
    (hsym : i0 < m.symbols.length) :
    get_fragment m [p] [] = .error (.indexError "masses") := by
  have hoverlap : ([p].any (fun i => ([] : List ℕ).contains i)) = false := by simp
  obtain ⟨rs, hrs⟩ := getRows_ok m.geometry (i0 :: rest) hgeom
  obtain ⟨s0, hs0⟩ : ∃ s0, m.symbols.get? i0 = some s0 := by
    cases hg : m.symbols.get? i0 with
    | none => rw [List.get?_eq_none] at hg; omega
    | some s0 => exact ⟨s0, rfl⟩
  have hatoms : getAtoms m (i0 :: rest) = .error (.indexError "masses") := by
    unfold getAtoms
    rw [show listGet m.symbols i0 "symbols" = .ok s0 from by unfold listGet; rw [hs0]]
    dsimp only
    rw [show listGet m.masses i0 "masses" = .error (.indexError "masses") from by
      unfold listGet; rw [hm]; rfl]
  have hloop : fragLoop m true fragAccInit [p] = .error (.indexError "masses") := by
    unfold fragLoop
    rw [show listGet m.fragments p "fragments" = .ok (i0 :: rest) from by
      unfold listGet; rw [hf]]
    dsimp only
    rw [hrs]
    dsimp only
    rw [hatoms]
  unfold get_fragment
  rw [hoverlap]
  dsimp only
  rw [hloop]
  rfl

/-- C10 witness: the helium dimer parsed from specification text has
no masses, and selecting its only fragment fails at the masses copy. -/
theorem get_fragment_fails_without_masses_witness :
    helium_dimer_mol.masses = [] ∧
    get_fragment helium_dimer_mol [0] [] = .error (.indexError "masses") :=
  ⟨rfl, get_fragment_fails_without_masses helium_dimer_mol 0 0 [1] rfl rfl
    (by decide) (by decide)⟩

/-- C9 amended: an overlapping real/ghost fragment selection makes
`get_fragment` raise a TypeError-class error (not ValueError-class)
and return no entity, while a disjoint selection never raises that
overlap error (any failure of the copy loops is an IndexError-class
error, and an empty selection a ValueError-class one). -/
theorem get_fragment_overlap_spec (m : Molecule) (r g : List ℕ) :
    (r.any (fun i => g.contains i) = true →
      get_fragment m r g =
        .error (.typeError
          "Molecule:get_fragment: real and ghost sets are overlaping!")) ∧
    (r.any (fun i => g.contains i) = false →
      ∀ s, get_fragment m r g ≠ .error (.typeError s)) := by
  constructor
  · intro h
    unfold get_fragment
    rw [h]
    rfl
  · intro h s hc
    unfold get_fragment at hc
    rw [h] at hc
    dsimp only [Bool.false_eq_true, if_false] at hc
    cases h1 : fragLoop m true fragAccInit r with
    | error e =>
      rw [h1] at hc; dsimp only at hc
      obtain ⟨s1, rfl⟩ := fragLoop_index_error m true r fragAccInit e h1
      exact absurd (Except.error.inj hc) (by simp)
    | ok acc1 =>
      rw [h1] at hc; dsimp only at hc
      cases h2 : fragLoop m false acc1 g with
      | error e =>
        rw [h2] at hc; dsimp only at hc
        obtain ⟨s2, rfl⟩ := fragLoop_index_error m false g acc1 e h2
        exact absurd (Except.error.inj hc) (by simp)
      | ok acc2 =>
        rw [h2] at hc; dsimp only at hc
        by_cases h3 : acc2.geom_blocks = []
        · rw [if_pos h3] at hc
          exact absurd (Except.error.inj hc) (by simp)
        · rw [if_neg h3] at hc
          cases hc

/-- C9 witness: both directions of the overlap specification at
concrete selections on the water dimer. -/
theorem get_fragment_overlap_spec_witness :
    (([0] : List ℕ).any (fun i => ([0] : List ℕ).contains i) = true) ∧
    get_fragment water_dimer_mol [0] [0] =
      .error (.typeError
        "Molecule:get_fragment: real and ghost sets are overlaping!") ∧
    (([0] : List ℕ).any (fun i => ([1] : List ℕ).contains i) = false) ∧
    get_fragment water_dimer_mol [0] [1] ≠
      .error (.typeError "Molecule:get_fragment: real and ghost sets are overlaping!") :=
  ⟨by decide,
   (get_fragment_overlap_spec water_dimer_mol [0] [0]).1 (by decide),
   by decide,
   (get_fragment_overlap_spec water_dimer_mol [0] [1]).2 (by decide) _⟩

/-! ## Unit-conversion lemmas for pass 1 -/

theorem matchBohr_eq_false_of_comment (cs : List Char)
    (h : matchComment cs = true) : matchBohr cs = false := by
  unfold matchComment at h
  unfold matchBohr matchUnitsHead
  cases hs : stripLead cs with
  | nil => rw [hs] at h; simp at h
  | cons c t =>
    rw [hs] at h
    simp at h
    subst h
    rfl

theorem matchBohr_eq_false_of_blank (cs : List Char)
    (h : matchBlank cs = true) : matchBohr cs = false := by
  unfold matchBlank at h
  unfold matchBohr matchUnitsHead
  rw [List.isEmpty_iff] at h
  rw [h]
  rfl

theorem pass1Line_uc (st : Pass1State) (l : String) (st1 : Pass1State)
    (h : pass1Line st l = .ok st1) :
    st1.unit_conversion = if matchBohr l.toList then 1 else st.unit_conversion := by
  unfold pass1Line at h
  by_cases h1 : (matchComment l.toList || matchBlank l.toList) = true
  · have hb : matchBohr l.toList = false := by
      rcases Bool.or_eq_true_iff.mp h1 with hc | hbl
      · exact matchBohr_eq_false_of_comment _ hc
      · exact matchBohr_eq_false_of_blank _ hbl
    rw [if_pos h1] at h
    cases h
    rw [hb]
    rfl
  · rw [if_neg h1] at h
    by_cases h2 : matchBohr l.toList = true
    · rw [if_pos h2] at h
      cases h
      rw [h2]
      simp
    · rw [if_neg h2] at h
      have h2f : matchBohr l.toList = false := by
        rwa [Bool.not_eq_true] at h2
      rw [h2f]
      simp only [Bool.false_eq_true, if_false]
      by_cases h3 : matchAng l.toList = true
      · rw [if_pos h3] at h; cases h; rfl
      · rw [if_neg h3] at h
        cases hc : matchCgmp l.toList with
        | some p =>
          rw [hc] at h
          obtain ⟨c, mlt⟩ := p
          dsimp only at h
          by_cases h4 : st.ifrag = 0
          · rw [if_pos h4] at h; cases h; rfl
          · rw [if_neg h4] at h; cases h; rfl
        | none =>
          rw [hc] at h
          dsimp only at h
          by_cases h5 : matchFrag l.toList = true
          · rw [if_pos h5] at h
            by_cases h6 : st.ifrag < st.fragment_charges.length
            · rw [if_pos h6] at h; cases h; rfl
            · rw [if_neg h6] at h; cases h; rfl
          · rw [if_neg h5] at h
            cases hsp : pySplit l.toList with
            | nil => rw [hsp] at h; cases h
            | cons tok rest =>
              rw [hsp] at h
              dsimp only at h
              by_cases h6 : (atomMatch tok).isSome = true
              · rw [if_pos h6] at h; cases h; rfl
              · rw [if_neg h6] at h; cases h

theorem pass1Run_uc :
    ∀ (lines : List String) (st0 st : Pass1State),
      pass1Run st0 lines = .ok st →
      st.unit_conversion =
        if lines.any (fun l => matchBohr l.toList) then 1 else st0.unit_conversion := by
  intro lines
  induction lines with
  | nil =>
    intro st0 st h
    cases h
    rfl
  | cons l ls ih =>
    intro st0 st h
    unfold pass1Run at h
    cases h1 : pass1Line st0 l with
    | error e => rw [h1] at h; cases h
    | ok st1 =>
      rw [h1] at h
      have hl := pass1Line_uc st0 l st1 h1
      have hr := ih st1 st h
      rw [List.any_cons]
      by_cases hb : matchBohr l.toList = true
      · rw [hb] at hl
        simp only [if_pos rfl] at hl
        rw [hb, Bool.true_or]
        simp only [if_pos rfl]
        rw [hr, hl]
        by_cases ha : ls.any (fun l => matchBohr l.toList) = true
        · rw [ha]; simp
        · rw [Bool.not_eq_true] at ha; rw [ha]; simp
      · rw [Bool.not_eq_true] at hb
        rw [hb] at hl
        simp only [Bool.false_eq_true, if_false] at hl
        rw [hb, Bool.false_or, hr, hl]

/-- C4 amended: for every specification text that pass 1 accepts, the
applied length scale factor is 1 exactly when some line of the block
(anywhere: before or after atom lines, first or not) matches the
bohr/au/a.u. unit directive, and the default 1/bohr2angstroms
otherwise; angstrom directives and directive position or multiplicity
have no effect. -/
theorem unit_conversion_iff_any_bohr_directive (lines : List String) (st : Pass1State)
    (h : pass1 lines = .ok st) :
    st.unit_conversion =
      if lines.any (fun l => matchBohr l.toList) then 1 else 1 / bohr2angstroms := by
  unfold pass1 at h
  cases h1 : pass1Run pass1Init lines with
  | error e => rw [h1] at h; cases h
  | ok st0 =>
    rw [h1] at h
    cases h
    have := pass1Run_uc lines pass1Init st0 h1
    unfold pass1Fix
    by_cases h2 : st0.ifrag < st0.fragment_charges.length
    · rw [if_pos h2]; exact this
    · rw [if_neg h2]; exact this

unseal Rat.mul Rat.inv Rat.add Rat.sub in
/-- C4 witness: the amended unit rule evaluated on a one-directive
block. -/
theorem unit_conversion_iff_any_bohr_directive_witness :
    (pass1 ["units bohr"]).map Pass1State.unit_conversion =
      .ok (if (["units bohr"].any (fun l => matchBohr l.toList)) then (1 : ℚ)
           else 1 / bohr2angstroms) := by
  have h : pass1 ["units bohr"] = .ok ⟨0, 1, [0], [1], 0, [], 1⟩ := by decide
  rw [h]
  exact congrArg Except.ok (unit_conversion_iff_any_bohr_directive ["units bohr"] _ h)

/-! ## Metadata independence of the hash -/

theorem lookup_append_jv (k : String) :
    ∀ (l1 l2 : List (String × JValue)),
      List.lookup k (l1 ++ l2) =
        ((List.lookup k l1).orElse (fun _ => List.lookup k l2)) := by
  intro l1 l2
  induction l1 with
  | nil => simp [List.lookup]
  | cons a t ih =>
    obtain ⟨k1, v1⟩ := a
    by_cases h : (k == k1) = true
    · simp [List.lookup, h]
    · simp only [Bool.not_eq_true] at h
      simp [List.lookup, h, ih]

theorem lookup_meta_none (m : Molecule) (f : String) (hf : f ∈ hash_fields) :
    List.lookup f (to_json_part m meta_fields) = none := by
  have hm : to_json_part m meta_fields =
      [("name", .jstr m.name), ("comment", .jstr m.comment),
       ("provenance", .jobj (m.provenance.map (fun p => (p.1, .jstr p.2))))] := rfl
  rw [hm]
  fin_cases hf <;> rfl

theorem hashfold_congr :
    ∀ (fs : List String) (d1 d2 : List (String × JValue)) (acc : String),
      (∀ f ∈ fs, List.lookup f d1 = List.lookup f d2) →
      fs.foldl (fun concat field =>
        match List.lookup field d1 with
        | none => concat
        | some v => concat ++ jsonDumps v) acc =
      fs.foldl (fun concat field =>
        match List.lookup field d2 with
        | none => concat
        | some v => concat ++ jsonDumps v) acc := by
  intro fs
  induction fs with
  | nil => intro d1 d2 acc h; rfl
  | cons f ft ih =>
    intro d1 d2 acc h
    simp only [List.foldl_cons]
    rw [h f (List.mem_cons_self f ft)]
    exact ih d1 d2 _ (fun f2 h2 => h f2 (List.mem_cons_of_mem f h2))

/-- C5: `get_hash` is a function of the declared hash-field subset
only: replacing `name`, `comment` and `provenance` arbitrarily (all
other attributes unchanged) leaves the digest unchanged, because the
hash concatenation only reads the schema-declared hash fields of the
serialized mapping. -/
theorem get_hash_independent_of_metadata (m : Molecule) (nm cm : String)
    (pv : List (String × String)) :
    get_hash { m with name := nm, comment := cm, provenance := pv } = get_hash m := by
  have hsplit : ∀ m0 : Molecule,
      to_json m0 = to_json_part m0 struct_fields ++ to_json_part m0 meta_fields := by
    intro m0
    unfold to_json to_json_part valid_fields
    exact List.filterMap_append _ _ _
  have hstruct : to_json_part { m with name := nm, comment := cm, provenance := pv }
      struct_fields = to_json_part m struct_fields := rfl
  have hkey : ∀ f ∈ hash_fields,
      List.lookup f (to_json { m with name := nm, comment := cm, provenance := pv }) =
        List.lookup f (to_json m) := by
    intro f hf
    rw [hsplit, hsplit, lookup_append_jv, lookup_append_jv, hstruct,
        lookup_meta_none _ f hf, lookup_meta_none _ f hf]
  unfold get_hash sha1hex hashConcat
  exact hashfold_congr hash_fields _ _ "" hkey

/-! ## Serializer field emission -/

theorem mem_to_json (m : Molecule) (f : String) (v : JValue) :
    (f, v) ∈ to_json m ↔ f ∈ valid_fields ∧ jsonEntry m f = some v := by
  unfold to_json to_json_part
  rw [List.mem_filterMap]
  constructor
  · rintro ⟨a, ha, hav⟩
    rw [Option.map_eq_some'] at hav
    obtain ⟨w, hw, heq⟩ := hav
    rw [Prod.mk.injEq] at heq
    obtain ⟨rfl, rfl⟩ := heq
    exact ⟨ha, hw⟩
  · rintro ⟨hf, hj⟩
    exact ⟨f, hf, by rw [hj]; rfl⟩

/-- C8: the serialized mapping holds only populated attributes: each
sequence attribute appears exactly when it is nonempty (and `masses`
additionally requires the custom-mass flag), and the floating fields
that are emitted are quantized -- geometry to 8 decimal places,
charge and fragment_charges to 4, masses to 6; charge and
multiplicity are always emitted. -/
theorem to_json_emits_populated_quantized_fields (m : Molecule) :
    (∀ v, ("symbols", v) ∈ to_json m ↔
      (m.symbols ≠ [] ∧ v = .jarr (m.symbols.map .jstr))) ∧
    (∀ v, ("geometry", v) ∈ to_json m ↔
      (m.geometry ≠ [] ∧ v = .jarr (m.geometry.map (fun w =>
        .jarr [.jnum (float_prep GEOMETRY_NOISE w.x),
               .jnum (float_prep GEOMETRY_NOISE w.y),
               .jnum (float_prep GEOMETRY_NOISE w.z)])))) ∧
    (∀ v, ("masses", v) ∈ to_json m ↔
      (m.custom_masses = true ∧ m.masses ≠ [] ∧
        v = .jarr (m.masses.map (fun q => .jnum (float_prep MASS_NOISE q))))) ∧
    (("charge", .jnum (float_prep CHARGE_NOISE m.charge)) ∈ to_json m) ∧
    (("multiplicity", .jint m.multiplicity) ∈ to_json m) ∧
    (∀ v, ("real", v) ∈ to_json m ↔
      (m.real ≠ [] ∧ v = .jarr (m.real.map .jbool))) ∧
    (∀ v, ("fragments", v) ∈ to_json m ↔
      (m.fragments ≠ [] ∧ v = .jarr (m.fragments.map (fun fr =>
        .jarr (fr.map (fun i => .jint i)))))) ∧
    (∀ v, ("fragment_charges", v) ∈ to_json m ↔
      (m.fragment_charges ≠ [] ∧
        v = .jarr (m.fragment_charges.map (fun q =>
          .jnum (float_prep CHARGE_NOISE q))))) ∧
    (∀ v, ("fragment_multiplicities", v) ∈ to_json m ↔
      (m.fragment_multiplicities ≠ [] ∧
        v = .jarr (m.fragment_multiplicities.map .jint))) := by
  refine ⟨?_, ?_, ?_, ?_, ?_, ?_, ?_, ?_, ?_⟩
  · intro v
    rw [mem_to_json]
    refine Iff.trans (and_iff_right (show ("symbols" : String) ∈ valid_fields by decide)) ?_
    have hj : jsonEntry m "symbols" =
        (if m.symbols.isEmpty then none
         else some (.jarr (m.symbols.map .jstr))) := rfl
    rw [hj]
    by_cases h1 : m.symbols.isEmpty
    · rw [if_pos h1]; rw [List.isEmpty_iff] at h1; simp [h1]
    · rw [if_neg h1]; rw [List.isEmpty_iff] at h1; simp [h1, eq_comm]
  · intro v
    rw [mem_to_json]
    refine Iff.trans (and_iff_right (show ("geometry" : String) ∈ valid_fields by decide)) ?_
    have hj : jsonEntry m "geometry" =
        (if m.geometry.isEmpty then none
         else some (.jarr (m.geometry.map (fun w =>
           .jarr [.jnum (float_prep GEOMETRY_NOISE w.x),
                  .jnum (float_prep GEOMETRY_NOISE w.y),
                  .jnum (float_prep GEOMETRY_NOISE w.z)])))) := rfl
    rw [hj]
    by_cases h1 : m.geometry.isEmpty
    · rw [if_pos h1]; rw [List.isEmpty_iff] at h1; simp [h1]
    · rw [if_neg h1]; rw [List.isEmpty_iff] at h1; simp [h1, eq_comm]
  · intro v
    rw [mem_to_json]
    refine Iff.trans (and_iff_right (show ("masses" : String) ∈ valid_fields by decide)) ?_
    have hj : jsonEntry m "masses" =
        (if m.masses.isEmpty then none
         else if m.custom_masses = false then none
         else some (.jarr (m.masses.map (fun q =>
           .jnum (float_prep MASS_NOISE q))))) := rfl
    rw [hj]
    by_cases h1 : m.masses.isEmpty
    · rw [if_pos h1]; rw [List.isEmpty_iff] at h1; simp [h1]
    · rw [if_neg h1]
      rw [List.isEmpty_iff] at h1
      by_cases h2 : m.custom_masses = false
      · simp [h1, h2]
      · rw [Bool.not_eq_false] at h2
        simp [h1, h2, eq_comm]
  · rw [mem_to_json]
    exact ⟨by decide, rfl⟩
  · rw [mem_to_json]
    exact ⟨by decide, rfl⟩
  · intro v
    rw [mem_to_json]
    refine Iff.trans (and_iff_right (show ("real" : String) ∈ valid_fields by decide)) ?_
    have hj : jsonEntry m "real" =
        (if m.real.isEmpty then none
         else some (.jarr (m.real.map .jbool))) := rfl
    rw [hj]
    by_cases h1 : m.real.isEmpty
    · rw [if_pos h1]; rw [List.isEmpty_iff] at h1; simp [h1]
    · rw [if_neg h1]; rw [List.isEmpty_iff] at h1; simp [h1, eq_comm]
  · intro v
    rw [mem_to_json]
    refine Iff.trans (and_iff_right (show ("fragments" : String) ∈ valid_fields by decide)) ?_
    have hj : jsonEntry m "fragments" =
        (if m.fragments.isEmpty then none
         else some (.jarr (m.fragments.map (fun fr =>
           .jarr (fr.map (fun i => .jint i)))))) := rfl
    rw [hj]
    by_cases h1 : m.fragments.isEmpty
    · rw [if_pos h1]; rw [List.isEmpty_iff] at h1; simp [h1]
    · rw [if_neg h1]; rw [List.isEmpty_iff] at h1; simp [h1, eq_comm]
  · intro v
    rw [mem_to_json]
    refine Iff.trans
      (and_iff_right (show ("fragment_charges" : String) ∈ valid_fields by decide)) ?_
    have hj : jsonEntry m "fragment_charges" =
        (if m.fragment_charges.isEmpty then none
         else some (.jarr (m.fragment_charges.map (fun q =>
           .jnum (float_prep CHARGE_NOISE q))))) := rfl
    rw [hj]
    by_cases h1 : m.fragment_charges.isEmpty
    · rw [if_pos h1]; rw [List.isEmpty_iff] at h1; simp [h1]
    · rw [if_neg h1]; rw [List.isEmpty_iff] at h1; simp [h1, eq_comm]
  · intro v
    rw [mem_to_json]
    refine Iff.trans
      (and_iff_right (show ("fragment_multiplicities" : String) ∈ valid_fields by decide)) ?_
    have hj : jsonEntry m "fragment_multiplicities" =
        (if m.fragment_multiplicities.isEmpty then none
         else some (.jarr (m.fragment_multiplicities.map .jint))) := rfl
    rw [hj]
    by_cases h1 : m.fragment_multiplicities.isEmpty
    · rw [if_pos h1]; rw [List.isEmpty_iff] at h1; simp [h1]
    · rw [if_neg h1]; rw [List.isEmpty_iff] at h1; simp [h1, eq_comm]

/-! ## Sign-fixing scan analysis -/

/-- The coordinate of row `i` on axis `a`, when the row exists. -/
def entryQ (g : List Vec3) (i : ℕ) (a : Fin 3) : Option ℚ :=
  (g.get? i).map (fun v => v.get a)

/-- Has any of the first `n` atoms a coordinate on axis `a` that
reaches the tolerance? -/
def scanHit (g : List Vec3) (a : Fin 3) (n : ℕ) : Bool :=
  (g.take n).any (fun r => geTol (r.get a))

theorem Vec3.get_set_self (v : Vec3) (a : Fin 3) (q : ℚ) :
    (v.set a q).get a = q := by
  fin_cases a <;> rfl

theorem Vec3.get_set_other (v : Vec3) (a b : Fin 3) (q : ℚ) (h : b ≠ a) :
    (v.set a q).get b = v.get b := by
  fin_cases a <;> fin_cases b <;> first | rfl | exact absurd rfl h

theorem negCol_length (g : List Vec3) (a : Fin 3) :
    (negCol g a).length = g.length := by
  simp [negCol]

theorem entryQ_negCol_self (g : List Vec3) (i : ℕ) (a : Fin 3) :
    entryQ (negCol g a) i a = (entryQ g i a).map (fun q => -q) := by
  unfold entryQ negCol
  rw [List.get?_map]
  cases g.get? i with
  | none => rfl
  | some v => simp [Vec3.get_set_self]

theorem entryQ_negCol_other (g : List Vec3) (i : ℕ) (a b : Fin 3) (h : b ≠ a) :
    entryQ (negCol g a) i b = entryQ g i b := by
  unfold entryQ negCol
  rw [List.get?_map]
  cases g.get? i with
  | none => rfl
  | some v => simp [Vec3.get_set_other v a b _ h]

theorem scanHit_succ (g : List Vec3) (a : Fin 3) (n : ℕ) :
    scanHit g a (n + 1) =
      (scanHit g a n ||
        (match g.get? n with
         | some r => geTol (r.get a)
         | none => false)) := by
  unfold scanHit
  rw [List.take_succ, List.any_append]
  rw [show g[n]? = g.get? n from (List.get?_eq_getElem? g n).symm]
  cases g.get? n with
  | none => simp
  | some r => simp

theorem find?_first {α : Type} (p : α → Bool) :
    ∀ (l : List α) (n : ℕ) (r : α),
      ((l.take n).any p) = false → l.get? n = some r → p r = true →
      l.find? p = some r := by
  intro l
  induction l with
  | nil => intro n r _ h2; simp at h2
  | cons x t ih =>
    intro n r h1 h2 h3
    cases n with
    | zero =>
      simp at h2
      subst h2
      simp [List.find?, h3]
    | succ k =>
      rw [List.take_succ_cons, List.any_cons, Bool.or_eq_false_iff] at h1
      obtain ⟨hx, ht⟩ := h1
      rw [List.find?]
      rw [hx]
      exact ih k r ht (by simpa using h2) h3

theorem any_of_find?_eq_some {α : Type} (p : α → Bool) (l : List α) (r : α)
    (h : l.find? p = some r) : l.any p = true := by
  rw [List.any_eq_true]
  exact ⟨r, List.mem_of_find?_eq_some h, List.find?_some h⟩

/-- The per-axis invariant of the sign-fixing scan: after the first
`num` atoms, the phase flag records whether the tolerance was reached
on axis `a`, and the current column `a` is the original column,
negated exactly when the flag is set and the deciding coordinate was
negative. -/
def AxInv (orig h : List Vec3) (pc : Fin 3 → Bool) (num : ℕ) (a : Fin 3) : Prop :=
  pc a = scanHit orig a num ∧
  ∀ i, entryQ h i a =
    (entryQ orig i a).map
      (fun q => if pc a && axisDecision geTol orig a then -q else q)

theorem axisStep_main (orig h : List Vec3) (pc : Fin 3 → Bool) (num : ℕ) (a : Fin 3)
    (hlen : h.length = orig.length) (hnum : num < orig.length)
    (hax : AxInv orig h pc num a) :
    (axisStep h pc num a).1.length = orig.length ∧
    AxInv orig (axisStep h pc num a).1 (axisStep h pc num a).2 (num + 1) a ∧
    (∀ b, b ≠ a → (axisStep h pc num a).2 b = pc b ∧
      ∀ i, entryQ (axisStep h pc num a).1 i b = entryQ h i b) := by
  obtain ⟨hpc, hcol⟩ := hax
  by_cases hpa : pc a = true
  · have hstep : axisStep h pc num a = (h, pc) := by
      unfold axisStep
      rw [if_pos hpa]
    rw [hstep]
    refine ⟨hlen, ⟨?_, hcol⟩, fun b _ => ⟨rfl, fun i => rfl⟩⟩
    show pc a = scanHit orig a (num + 1)
    rw [hpa, scanHit_succ, ← hpc, hpa]
    simp
  · have hpaf : pc a = false := by rwa [Bool.not_eq_true] at hpa
    obtain ⟨row, hrow⟩ : ∃ row, h.get? num = some row := by
      cases hg : h.get? num with
      | none =>
        rw [List.get?_eq_none] at hg
        omega
      | some r => exact ⟨r, rfl⟩
    obtain ⟨orow, horow⟩ : ∃ orow, orig.get? num = some orow := by
      cases hg : orig.get? num with
      | none =>
        rw [List.get?_eq_none] at hg
        omega
      | some r => exact ⟨r, rfl⟩
    have hval : row.get a = orow.get a := by
      have hc := hcol num
      rw [entryQ, entryQ, hrow, horow, hpaf] at hc
      simpa using hc
    by_cases htol : |row.get a| < geom_noise
    · have hstep : axisStep h pc num a = (h, pc) := by
        unfold axisStep
        rw [if_neg hpa, hrow]
        dsimp only
        rw [if_pos htol]
      rw [hstep]
      have hge : geTol (orow.get a) = false := by
        unfold geTol
        rw [← hval]
        exact decide_eq_false (not_le.mpr htol)
      refine ⟨hlen, ⟨?_, hcol⟩, fun b _ => ⟨rfl, fun i => rfl⟩⟩
      show pc a = scanHit orig a (num + 1)
      rw [hpaf, scanHit_succ, ← hpc, hpaf, horow]
      simp [hge]
    · have hge : geTol (orow.get a) = true := by
        unfold geTol
        rw [← hval]
        exact decide_eq_true (not_lt.mp htol)
      have hfind : orig.find? (fun r => geTol (r.get a)) = some orow := by
        refine find?_first _ orig num orow ?_ horow hge
        have : scanHit orig a num = false := by rw [← hpc]; exact hpaf
        exact this
      have hdec : axisDecision geTol orig a = decide (orow.get a < 0) := by
        unfold axisDecision
        rw [hfind]
      have hsucc : scanHit orig a (num + 1) = true := by
        rw [scanHit_succ, horow]
        simp [hge]
      by_cases hneg : row.get a < 0
      · have hstep : axisStep h pc num a =
            (negCol h a, fun j => if j = a then true else pc j) := by
          unfold axisStep
          rw [if_neg hpa, hrow]
          dsimp only
          rw [if_neg htol, if_pos hneg]
        rw [hstep]
        have hdec2 : decide (orow.get a < 0) = true := by
          rw [← hval]
          exact decide_eq_true hneg
        refine ⟨by rw [negCol_length]; exact hlen, ⟨?_, ?_⟩, ?_⟩
        · simp [hsucc]
        · intro i
          rw [entryQ_negCol_self, hcol i, hpaf, hdec, hdec2]
          cases entryQ orig i a with
          | none => rfl
          | some q => simp
        · intro b hb
          refine ⟨by simp [hb], fun i => entryQ_negCol_other h i a b hb⟩
      · have hstep : axisStep h pc num a =
            (h, fun j => if j = a then true else pc j) := by
          unfold axisStep
          rw [if_neg hpa, hrow]
          dsimp only
          rw [if_neg htol, if_neg hneg]
        rw [hstep]
        have hdec2 : decide (orow.get a < 0) = false := by
          rw [← hval]
          exact decide_eq_false hneg
        refine ⟨hlen, ⟨?_, ?_⟩, ?_⟩
        · simp [hsucc]
        · intro i
          rw [hcol i, hpaf, hdec, hdec2]
          cases entryQ orig i a with
          | none => rfl
          | some q => simp
        · intro b hb
          refine ⟨by simp [hb], fun i => rfl⟩

theorem AxInv_transport (orig h1 h2 : List Vec3) (pc1 pc2 : Fin 3 → Bool)
    (k : ℕ) (b : Fin 3)
    (hp : pc2 b = pc1 b) (he : ∀ i, entryQ h2 i b = entryQ h1 i b)
    (h : AxInv orig h1 pc1 k b) : AxInv orig h2 pc2 k b := by
  obtain ⟨ha, hb⟩ := h
  refine ⟨by rw [hp, ha], fun i => by rw [he i, hp, hb i]⟩

theorem atomStep_main (orig h : List Vec3) (pc : Fin 3 → Bool) (num : ℕ)
    (hnum : num < orig.length) (hlen : h.length = orig.length)
    (hax : ∀ a, AxInv orig h pc num a) :
    (atomStep h pc num).1.length = orig.length ∧
    ∀ a, AxInv orig (atomStep h pc num).1 (atomStep h pc num).2 (num + 1) a := by
  obtain ⟨hl0, hax00, hoth0⟩ := axisStep_main orig h pc num 0 hlen hnum (hax 0)
  have hax01 : AxInv orig (axisStep h pc num 0).1 (axisStep h pc num 0).2 num 1 :=
    AxInv_transport orig h _ pc _ num 1
      (hoth0 1 (by decide)).1 (hoth0 1 (by decide)).2 (hax 1)
  have hax02 : AxInv orig (axisStep h pc num 0).1 (axisStep h pc num 0).2 num 2 :=
    AxInv_transport orig h _ pc _ num 2
      (hoth0 2 (by decide)).1 (hoth0 2 (by decide)).2 (hax 2)
  obtain ⟨hl1, hax11, hoth1⟩ :=
    axisStep_main orig (axisStep h pc num 0).1 (axisStep h pc num 0).2 num 1
      hl0 hnum hax01
  have hax10 := AxInv_transport orig (axisStep h pc num 0).1 _
      (axisStep h pc num 0).2 _ (num + 1) 0
      (hoth1 0 (by decide)).1 (hoth1 0 (by decide)).2 hax00
  have hax12 := AxInv_transport orig (axisStep h pc num 0).1 _
      (axisStep h pc num 0).2 _ num 2
      (hoth1 2 (by decide)).1 (hoth1 2 (by decide)).2 hax02
  obtain ⟨hl2, hax22, hoth2⟩ :=
    axisStep_main orig _ _ num 2 hl1 hnum hax12
  have hax20 := AxInv_transport orig _ _ _ _ (num + 1) 0
      (hoth2 0 (by decide)).1 (hoth2 0 (by decide)).2 hax10
  have hax21 := AxInv_transport orig _ _ _ _ (num + 1) 1
      (hoth2 1 (by decide)).1 (hoth2 1 (by decide)).2 hax11
  refine ⟨hl2, ?_⟩
  intro a
  fin_cases a
  · exact hax20
  · exact hax21
  · exact hax22

theorem state_eq_claimed (orig h : List Vec3) (pc : Fin 3 → Bool) (num : ℕ)
    (hl : h.length = orig.length)
    (hax : ∀ a, AxInv orig h pc num a)
    (hflag : ∀ a, (pc a && axisDecision geTol orig a) = axisDecision geTol orig a) :
    h = claimed_sign_fix geTol orig := by
  have hcl : ∀ i, (claimed_sign_fix geTol orig).get? i =
      (orig.get? i).map (fun v =>
        ⟨if axisDecision geTol orig 0 then -v.x else v.x,
         if axisDecision geTol orig 1 then -v.y else v.y,
         if axisDecision geTol orig 2 then -v.z else v.z⟩) := by
    intro i
    unfold claimed_sign_fix
    rw [List.get?_map]
  have hcomp : ∀ (i : ℕ) (a : Fin 3) (w v : Vec3),
      h.get? i = some w → orig.get? i = some v →
      w.get a = (if axisDecision geTol orig a then -(v.get a) else v.get a) := by
    intro i a w v hw hv
    have hc := (hax a).2 i
    rw [entryQ, entryQ, hw, hv, hflag a] at hc
    simp only [Option.map_some'] at hc
    exact Option.some.inj hc
  apply List.ext_get?
  intro i
  rw [hcl i]
  cases ho : orig.get? i with
  | none =>
    have hle : orig.length ≤ i := List.get?_eq_none.mp ho
    rw [show h.get? i = none from List.get?_eq_none.mpr (by omega)]
    rfl
  | some v =>
    have hi : i < orig.length := by
      by_contra hlt
      push_neg at hlt
      rw [List.get?_eq_none.mpr hlt] at ho
      cases ho
    obtain ⟨w, hw⟩ : ∃ w, h.get? i = some w := by
      cases hg : h.get? i with
      | none =>
        rw [List.get?_eq_none] at hg
        omega
      | some w => exact ⟨w, rfl⟩
    rw [hw]
    have h0 := hcomp i 0 w v hw ho
    have h1 := hcomp i 1 w v hw ho
    have h2 := hcomp i 2 w v hw ho
    obtain ⟨wx, wy, wz⟩ := w
    obtain ⟨vx, vy, vz⟩ := v
    simp only [Option.map_some']
    rw [Option.some.injEq, Vec3.mk.injEq]
    exact ⟨h0, h1, h2⟩

theorem phaseGo_claimed (orig : List Vec3) :
    ∀ (fuel : ℕ) (h : List Vec3) (pc : Fin 3 → Bool) (num : ℕ),
      num + fuel = orig.length →
      h.length = orig.length →
      (∀ a, AxInv orig h pc num a) →
      phaseGo h pc num fuel = claimed_sign_fix geTol orig := by
  intro fuel
  induction fuel with
  | zero =>
    intro h pc num hn hl hax
    have hnum : num = orig.length := by omega
    have hflag : ∀ a, (pc a && axisDecision geTol orig a) =
        axisDecision geTol orig a := by
      intro a
      by_cases hd : axisDecision geTol orig a = true
      · have hany : orig.any (fun r => geTol (r.get a)) = true := by
          unfold axisDecision at hd
          cases hf : orig.find? (fun r => geTol (r.get a)) with
          | none => rw [hf] at hd; cases hd
          | some r => exact any_of_find?_eq_some _ _ _ hf
        have hpa : pc a = true := by
          rw [(hax a).1, hnum]
          unfold scanHit
          rw [List.take_length]
          exact hany
        rw [hpa, hd]
        rfl
      · rw [Bool.not_eq_true] at hd
        rw [hd]
        simp
    show phaseGo h pc num 0 = claimed_sign_fix geTol orig
    unfold phaseGo
    exact state_eq_claimed orig h pc num hl hax hflag
  | succ fuel ih =>
    intro h pc num hn hl hax
    have hnum : num < orig.length := by omega
    obtain ⟨hl2, hax2⟩ := atomStep_main orig h pc num hnum hl hax
    by_cases hall : ((atomStep h pc num).2 0 && (atomStep h pc num).2 1 &&
        (atomStep h pc num).2 2) = true
    · have hdef : phaseGo h pc num (fuel + 1) =
          (if ((atomStep h pc num).2 0 && (atomStep h pc num).2 1 &&
              (atomStep h pc num).2 2) = true
           then (atomStep h pc num).1
           else phaseGo (atomStep h pc num).1 (atomStep h pc num).2 (num + 1) fuel) :=
        rfl
      rw [hdef, if_pos hall]
      have hflag : ∀ a, ((atomStep h pc num).2 a && axisDecision geTol orig a) =
          axisDecision geTol orig a := by
        intro a
        have h01 := Bool.and_eq_true_iff.mp hall
        have h0 := Bool.and_eq_true_iff.mp h01.1
        have : (atomStep h pc num).2 a = true := by
          fin_cases a
          · exact h0.1
          · exact h0.2
          · exact h01.2
        rw [this]
        rfl
      exact state_eq_claimed orig (atomStep h pc num).1 (atomStep h pc num).2
        (num + 1) hl2 hax2 hflag
    · have hdef : phaseGo h pc num (fuel + 1) =
          (if ((atomStep h pc num).2 0 && (atomStep h pc num).2 1 &&
              (atomStep h pc num).2 2) = true
           then (atomStep h pc num).1
           else phaseGo (atomStep h pc num).1 (atomStep h pc num).2 (num + 1) fuel) :=
        rfl
      rw [hdef, if_neg hall]
      exact ih (atomStep h pc num).1 (atomStep h pc num).2 (num + 1)
        (by omega) hl2 hax2

/-- C7 amended: the sign-fixing stage of `orient_molecule` equals the
per-axis independent scan described by the claim with the tolerance
test corrected from "strictly exceeds" to "is at least": for each
axis, the first atom whose coordinate magnitude is at least 10^-8
decides the sign (the whole column is negated exactly when that
coordinate is negative), an already fixed axis is skipped, scanning
stops when all three axes are fixed, and an axis on which no atom
reaches the tolerance is left unchanged. -/
theorem sign_fix_equals_per_axis_scan_ge_tolerance (g : List Vec3) :
    orient_phase_fix g = claimed_sign_fix geTol g := by
  unfold orient_phase_fix
  apply phaseGo_claimed g g.length g (fun _ => false) 0 (by omega) rfl
  intro a
  constructor
  · rfl
  · intro i
    cases hg : entryQ g i a with
    | none => rfl
    | some q => simp
